import Mathlib

/-!
Shallow embedding of `load.py` (class `directories`) from the Save_Temp
repository, together with proofs settling the frozen claims about it.

Modelling conventions:
* A filesystem path is a list of name components, rooted at the filesystem
  root (`os.path.join p k` is `p ++ [k]`, `os.path.dirname p` is `p.dropLast`).
* The filesystem is a finite tree `FSTree α`; `α` is the type of opaque
  payloads handed to the external serializers (the Python code never inspects
  them, so round-trip behaviour of the class is polymorphic in `α`).
* File contents are tagged by the serializer that produced them (`FData`):
  `json.dump` writes `.json v`, `pickle.dump` of an arbitrary object writes
  `.pkl v`, `pickle.dump` of a dict of DataFrames writes `.pklDict d`,
  `pd.HDFStore` writes `.hdf d`, `DataFrame.to_csv` writes `.csv v`.
* A Python call that raises an exception is modelled by `Except.error ()`
  (for the public methods) or `Option.none` (for the internal filesystem
  helpers).  The `None` sentinel returned by the load/info methods is the
  `Option.none`/`some` layer *inside* a successful `Except.ok`.
* Directory-listing order (`os.listdir`, `os.walk` sibling order) is the
  order in which children are stored in the tree; newly created entries are
  appended at the end.
-/

set_option autoImplicit false

universe u

/-- An absolute filesystem path, as a list of name components from the root. -/
abbrev FPath : Type := List String

/-- The slice of `os.stat_result` that `give_file_info` reads. -/
structure Stat where
  size : Nat
  mtime : Int
  mode : Nat
  deriving DecidableEq

/-- Metadata given to freshly created filesystem entries (the claims never
depend on the concrete values; `33188 = 0o100644`). -/
def defStat : Stat := ⟨0, 0, 33188⟩

/-- Contents of a regular file, tagged by the external serializer that wrote
it.  `α` is the opaque payload type. -/
inductive FData (α : Type u) where
  | json (v : α)
  | pkl (v : α)
  | pklDict (d : List (String × α))
  | hdf (d : List (String × α))
  | csv (v : α)
  | raw

/-- A filesystem tree: regular files with tagged contents, and directories
holding a (listing-ordered) list of named children. -/
inductive FSTree (α : Type u) where
  | file (st : Stat) (data : FData α)
  | dir (st : Stat) (children : List (String × FSTree α))

variable {α : Type u}

/-- Is this node a directory? -/
def FSTree.isDirNode : FSTree α → Bool
  | .dir _ _ => true
  | .file _ _ => false

/-- The `os.stat` metadata of a node (valid for files and directories alike). -/
def FSTree.statOf : FSTree α → Stat
  | .file s _ => s
  | .dir s _ => s

/-- First child with the given name (directory listings are keyed lists). -/
def lookupChild : List (String × FSTree α) → String → Option (FSTree α)
  | [], _ => none
  | e :: rest, n => if e.1 == n then some e.2 else lookupChild rest n

/-- Replace every child named `n` by `t` (used when an existing entry is
overwritten in place). -/
def replaceChild (ch : List (String × FSTree α)) (n : String) (t : FSTree α) :
    List (String × FSTree α) :=
  ch.map (fun e => if e.1 == n then (n, t) else e)

/-- Resolve a path from a node downwards. -/
def lookupT : FSTree α → FPath → Option (FSTree α)
  | t, [] => some t
  | .file _ _, _ :: _ => none
  | .dir _ ch, n :: rest =>
    match lookupChild ch n with
    | some t => lookupT t rest
    | none => none

/-- `os.path.exists`. -/
def existsAt (fs : FSTree α) (p : FPath) : Bool :=
  (lookupT fs p).isSome

/-- `os.path.isdir`. -/
def isDirAt (fs : FSTree α) (p : FPath) : Bool :=
  match lookupT fs p with
  | some (.dir _ _) => true
  | _ => false

/-- `os.path.isfile`. -/
def isFileAt (fs : FSTree α) (p : FPath) : Bool :=
  match lookupT fs p with
  | some (.file _ _) => true
  | _ => false

/-- `os.listdir p`: the child names of the directory at `p`, in listing
order; `none` when `p` is absent or not a directory (the call raises). -/
def listdir (fs : FSTree α) (p : FPath) : Option (List String) :=
  match lookupT fs p with
  | some (.dir _ ch) => some (ch.map (·.1))
  | _ => none

/-- Rebuild the tree after applying `f` to the directory node found at `p`
(`none` when `p` is absent, not a directory, or `f` fails). -/
def modifyDirAt : FSTree α → FPath → (Stat → List (String × FSTree α) → Option (FSTree α)) →
    Option (FSTree α)
  | .file _ _, _, _ => none
  | .dir s ch, [], f => f s ch
  | .dir s ch, n :: rest, f =>
    match lookupChild ch n with
    | some t =>
      match modifyDirAt t rest f with
      | some t2 => some (.dir s (replaceChild ch n t2))
      | none => none
    | none => none

/-- `open(parent/name, "w"/"wb")` followed by a full write of `d`: truncates
an existing regular file or creates a fresh one (appended to the listing);
fails when the parent directory is missing or `name` is a directory. -/
def pyOpenWrite (fs : FSTree α) (parent : FPath) (name : String) (d : FData α) :
    Option (FSTree α) :=
  modifyDirAt fs parent (fun s ch =>
    match lookupChild ch name with
    | some (.dir _ _) => none
    | some (.file _ _) => some (.dir s (replaceChild ch name (.file defStat d)))
    | none => some (.dir s (ch ++ [(name, .file defStat d)])))

/-- A fresh chain of nested empty directories (what `os.makedirs` creates
below the deepest existing ancestor). -/
def freshChain : List String → FSTree α
  | [] => .dir defStat []
  | n :: rest => .dir defStat [(n, freshChain rest)]

/-- Descend along `p`, creating the missing tail as fresh directories;
fails when an intermediate component is a regular file. -/
def addDirs : FSTree α → List String → Option (FSTree α)
  | .file _ _, _ => none
  | .dir s ch, [] => some (.dir s ch)
  | .dir s ch, n :: rest =>
    match lookupChild ch n with
    | some t =>
      match addDirs t rest with
      | some t2 => some (.dir s (replaceChild ch n t2))
      | none => none
    | none => some (.dir s (ch ++ [(n, freshChain rest)]))

/-- `os.makedirs p` (default `exist_ok=False`): raises when `p` already
exists, otherwise creates `p` and any missing intermediate directories. -/
def makedirs (fs : FSTree α) (p : FPath) : Option (FSTree α) :=
  if existsAt fs p then none else addDirs fs p

/-- Python `a in b` on strings: `needle` occurs in `hay` as a substring. -/
def listPrefixOfB : List Char → List Char → Bool
  | [], _ => true
  | _ :: _, [] => false
  | a :: as, b :: bs => a == b && listPrefixOfB as bs

/-- Substring occurrence on character lists. -/
def listInfixOfB : List Char → List Char → Bool
  | needle, [] => listPrefixOfB needle []
  | needle, b :: bs =>
    listPrefixOfB needle (b :: bs) || listInfixOfB needle bs

/-- Python `needle in hay` for strings. -/
def pyIn (needle hay : String) : Bool :=
  listInfixOfB needle.toList hay.toList

/-- Python `s.endswith(suffix)`. -/
def pyEndsWith (s suffix : String) : Bool :=
  listPrefixOfB suffix.toList.reverse s.toList.reverse

/-- Python `s.split('.')[0]`: the prefix of `s` before its first `'.'`
(the whole of `s` when it has no dot). -/
def pyFirstField (s : String) : String :=
  String.mk (s.toList.takeWhile (fun c => c ≠ '.'))

/-- Python `s.strip('/')`: drop every leading and trailing `'/'`. -/
def pyStripSlash (s : String) : String :=
  String.mk (((s.toList.dropWhile (fun c => c = '/')).reverse.dropWhile
    (fun c => c = '/')).reverse)

/-- Python `oct n` (for the nonnegative `st_mode`). -/
def pyOct (n : Nat) : String :=
  "0o" ++ String.mk (Nat.toDigits 8 n)

/-- Python `s[-3:]`. -/
def pyLast3 (s : String) : String :=
  String.mk (s.toList.drop (s.toList.length - 3))

/-- Python `d[k] = v` on a dict modelled as an insertion-ordered association
list: update the existing entry in place, else append. -/
def dictInsert (d : List (String × α)) (k : String) (v : α) : List (String × α) :=
  if d.any (fun e => e.1 == k) then
    d.map (fun e => if e.1 == k then (k, v) else e)
  else d ++ [(k, v)]

/-- The mutable attributes of a `directories` object (`__init__`): the
cached current path, the parent path captured at construction, the cached
listing, and the home directory from the environment. -/
structure DirState where
  cwd : FPath
  parent_dir : FPath
  files : List String
  home_dir : Option String
  deriving DecidableEq

/-- `directories.__init__`, run with process working directory `processCwd`
and environment `HOME = home`: captures `cwd`, `parent_dir = dirname cwd`,
`files = listdir()` and `home_dir`. -/
def directories_init (fs : FSTree α) (processCwd : FPath) (home : Option String) :
    Except Unit DirState :=
  match listdir fs processCwd with
  | some fl => .ok ⟨processCwd, processCwd.dropLast, fl, home⟩
  | none => .error ()

/-- `directories.list_files`. -/
def list_files (fs : FSTree α) (folder_path : FPath) : Except Unit (List String) :=
  match listdir fs folder_path with
  | some l => .ok l
  | none => .error ()

/-- `directories.count_items`: `ValueError` for an unsupported `item_type`,
else the sum over the listing of the `os.path.isfile` / `os.path.isdir`
indicator of each joined entry. -/
def count_items (fs : FSTree α) (folder_path : FPath) (item_type : String) :
    Except Unit Nat :=
  if item_type == "files" || item_type == "directories" then
    match listdir fs folder_path with
    | none => .error ()
    | some items =>
      if item_type == "files" then
        .ok ((items.map (fun i => if isFileAt fs (folder_path ++ [i]) then 1 else 0)).sum)
      else
        .ok ((items.map (fun i => if isDirAt fs (folder_path ++ [i]) then 1 else 0)).sum)
  else .error ()

/-- `directories.construct_dir`: `os.makedirs(new_dir_name)` with a *relative*
name, resolved against the process working directory (kept equal to
`st.cwd` by the class). -/
def construct_dir (fs : FSTree α) (st : DirState) (new_dir_name : String) :
    Option (FSTree α) :=
  makedirs fs (st.cwd ++ [new_dir_name])

/-- The loop body of `directories.join_path_with_keyword`: extend
`current_path` by each keyword in turn; when the extended path does not
exist, call `construct_dir keyword` (note: the *bare keyword*, resolved
against the process cwd, not the joined path). -/
def join_loop (fs : FSTree α) (st : DirState) : FPath → List String →
    Except Unit (FSTree α × FPath)
  | current, [] => .ok (fs, current)
  | current, k :: ks =>
    let current2 := current ++ [k]
    if existsAt fs current2 then join_loop fs st current2 ks
    else
      match construct_dir fs st k with
      | some fs2 => join_loop fs2 st current2 ks
      | none => .error ()

/-- `directories.join_path_with_keyword`. -/
def join_path_with_keyword (fs : FSTree α) (st : DirState) (keywords : List String) :
    Except Unit (FSTree α × FPath) :=
  join_loop fs st st.cwd keywords

/-- The `while True` loop of `directories.find_closest_kw_folder_up`:
check `current_path/kw`, stop when `current_path == self.parent_dir`,
else move to `dirname current_path`.  `fuel` bounds the iterations; the
outer `none` marks a run that would not terminate (the caller passes
`cwd.length + 2`, enough for every terminating run, since `dirname`
strictly shortens the path until it reaches the root). -/
def find_up_loop (fs : FSTree α) (kw : String) (parentDir : FPath) :
    Nat → FPath → Option (Option FPath)
  | 0, _ => none
  | fuel + 1, current =>
    let kw_path := current ++ [kw]
    if existsAt fs kw_path && isDirAt fs kw_path then some (some kw_path)
    else if current == parentDir then some none
    else find_up_loop fs kw parentDir fuel current.dropLast

/-- `directories.find_closest_kw_folder_up`. -/
def find_closest_kw_folder_up (fs : FSTree α) (st : DirState) (kw : String) :
    Option (Option FPath) :=
  find_up_loop fs kw st.parent_dir (st.cwd.length + 2) st.cwd

mutual
/-- The `(root, dirs, files)` triples of `os.walk` (restricted to the two
fields the class reads) for the tree `t` mounted at `p`: pre-order — one
triple per visited directory, then the walks of its subdirectories in
listing order. -/
def walkT : FSTree α → FPath → List (FPath × List String)
  | .file _ _, _ => []
  | .dir _ ch, p =>
    (p, (ch.filter (fun e => e.2.isDirNode)).map (·.1)) :: walkCh ch p
/-- The concatenated walks of the directory entries of a child list. -/
def walkCh : List (String × FSTree α) → FPath → List (FPath × List String)
  | [], _ => []
  | e :: rest, p =>
    (if e.2.isDirNode then walkT e.2 (p ++ [e.1]) else []) ++ walkCh rest p
end

/-- `os.walk p` over the modelled filesystem (an absent or non-directory
root yields no triples). -/
def pyWalk (fs : FSTree α) (p : FPath) : List (FPath × List String) :=
  match lookupT fs p with
  | some t => walkT t p
  | none => []

/-- The nested `for` loops of `find_closest_kw_folder_down`: scan each walk
triple in order and return `os.path.join root dir_name` for the first
subdirectory name containing `kw`. -/
def scanTuplesForKw (kw : String) : List (FPath × List String) → Option FPath
  | [] => none
  | (r, ds) :: rest =>
    match ds.find? (fun d => pyIn kw d) with
    | some d => some (r ++ [d])
    | none => scanTuplesForKw kw rest

/-- `directories.find_closest_kw_folder_down`. -/
def find_closest_kw_folder_down (fs : FSTree α) (st : DirState) (kw : String) :
    Option FPath :=
  scanTuplesForKw kw (pyWalk fs st.cwd)

/-- `directories.shift_dir`: `os.chdir` (raises when the target is not a
directory), then refresh `cwd` and `files` — `parent_dir` is left as it was. -/
def shift_dir (fs : FSTree α) (st : DirState) (new_dir : FPath) :
    Except Unit DirState :=
  if isDirAt fs new_dir then
    .ok { st with cwd := new_dir, files := (listdir fs new_dir).getD [] }
  else .error ()

/-- The dictionary built by `give_file_info`. -/
structure FileInfo where
  filename : String
  size : Nat
  last_modified : Int
  permissions : String
  deriving DecidableEq

/-- `directories.give_file_info`: `None` when `cwd/filename` does not exist,
else the `os.stat` fields (directories included — `os.path.exists` and
`os.stat` accept them). -/
def give_file_info (fs : FSTree α) (st : DirState) (filename : String) :
    Option FileInfo :=
  match lookupT fs (st.cwd ++ [filename]) with
  | some t =>
    some ⟨filename, t.statOf.size, t.statOf.mtime, pyLast3 (pyOct t.statOf.mode)⟩
  | none => none

/-- Remove the child named `name` of the directory at `p` (`none` when the
directory or the child is missing). -/
def fsRemoveChild (fs : FSTree α) (p : FPath) (name : String) : Option (FSTree α) :=
  modifyDirAt fs p (fun s ch =>
    if ch.any (fun e => e.1 == name) then
      some (.dir s (ch.filter (fun e => e.1 != name)))
    else none)

/-- Put `node` as the child named `name` of the directory at `p`, replacing
an existing entry of that name (the `os.rename` step of `shutil.move`). -/
def fsPutNode (fs : FSTree α) (p : FPath) (name : String) (node : FSTree α) :
    Option (FSTree α) :=
  modifyDirAt fs p (fun s ch =>
    if ch.any (fun e => e.1 == name) then
      some (.dir s (replaceChild ch name node))
    else some (.dir s (ch ++ [(name, node)])))

/-- `directories.move_file`.  Missing source: log and return (no change,
no exception).  Then `os.makedirs dest` when `dest` is absent (errors
propagate).  Then `shutil.move`: into an existing directory it refuses an
already-present target name (`shutil.Error`, caught and logged); onto an
existing file path it overwrites.  On success `self.files` is refreshed.
The `Bool` reports whether the success message was printed. -/
def move_file (fs : FSTree α) (st : DirState) (filename : String) (dest : FPath) :
    Except Unit (FSTree α × DirState × Bool) :=
  let file_path := st.cwd ++ [filename]
  if existsAt fs file_path then
    match (if existsAt fs dest then some fs else makedirs fs dest) with
    | none => .error ()
    | some fs1 =>
      match lookupT fs1 file_path with
      | none => .ok (fs1, st, false)
      | some node =>
        match lookupT fs1 dest with
        | some (.dir _ _) =>
          if existsAt fs1 (dest ++ [filename]) then
            .ok (fs1, st, false)
          else
            match fsRemoveChild fs1 st.cwd filename with
            | none => .ok (fs1, st, false)
            | some fs2 =>
              match fsPutNode fs2 dest filename node with
              | none => .ok (fs1, st, false)
              | some fs3 =>
                .ok (fs3, { st with files := (listdir fs3 st.cwd).getD [] }, true)
        | some (.file _ _) =>
          match fsRemoveChild fs1 st.cwd filename with
          | none => .ok (fs1, st, false)
          | some fs2 =>
            match fsPutNode fs2 dest.dropLast (dest.getLast?.getD "") node with
            | none => .ok (fs1, st, false)
            | some fs3 =>
              .ok (fs3, { st with files := (listdir fs3 st.cwd).getD [] }, true)
        | none => .ok (fs1, st, false)
  else
    .ok (fs, st, false)

/-- `directories.save_json`: `open(cwd/filename, "w")` + `json.dump`. -/
def save_json (fs : FSTree α) (st : DirState) (data : α) (filename : String) :
    Except Unit (FSTree α) :=
  match pyOpenWrite fs st.cwd filename (.json data) with
  | some fs2 => .ok fs2
  | none => .error ()

/-- `directories.load_json`: `None` when `cwd/filename` does not exist, else
parse the file (a non-JSON or directory target raises). -/
def load_json (fs : FSTree α) (st : DirState) (filename : String) :
    Except Unit (Option α) :=
  if existsAt fs (st.cwd ++ [filename]) then
    match lookupT fs (st.cwd ++ [filename]) with
    | some (.file _ (.json v)) => .ok (some v)
    | _ => .error ()
  else .ok none

/-- `directories.save_pickle`: `open(cwd/filename, "wb")` + `pickle.dump`. -/
def save_pickle (fs : FSTree α) (st : DirState) (data : α) (filename : String) :
    Except Unit (FSTree α) :=
  match pyOpenWrite fs st.cwd filename (.pkl data) with
  | some fs2 => .ok fs2
  | none => .error ()

/-- `directories.load_pickle`: `None` when `cwd/filename` does not exist,
else unpickle (a non-pickle or directory target raises). -/
def load_pickle (fs : FSTree α) (st : DirState) (filename : String) :
    Except Unit (Option α) :=
  if existsAt fs (st.cwd ++ [filename]) then
    match lookupT fs (st.cwd ++ [filename]) with
    | some (.file _ (.pkl v)) => .ok (some v)
    | _ => .error ()
  else .ok none

/-- `directories.save_dict_of_dfs_pickle`: pickle the whole dict to
`cwd/filename`. -/
def save_dict_of_dfs_pickle (fs : FSTree α) (st : DirState)
    (dfs : List (String × α)) (filename : String) : Except Unit (FSTree α) :=
  match pyOpenWrite fs st.cwd filename (.pklDict dfs) with
  | some fs2 => .ok fs2
  | none => .error ()

/-- `directories.load_dict_of_dfs_pickle`: `None` when `cwd/filename` does
not exist, else unpickle the dict. -/
def load_dict_of_dfs_pickle (fs : FSTree α) (st : DirState) (filename : String) :
    Except Unit (Option (List (String × α))) :=
  if existsAt fs (st.cwd ++ [filename]) then
    match lookupT fs (st.cwd ++ [filename]) with
    | some (.file _ (.pklDict d)) => .ok (some d)
    | _ => .error ()
  else .ok none

/-- `directories.save_dict_of_dfs_hdf5`: `pd.HDFStore(cwd/filename, "w")`
and `store[key] = df` for each entry, in dict order. -/
def save_dict_of_dfs_hdf5 (fs : FSTree α) (st : DirState)
    (dfs : List (String × α)) (filename : String) : Except Unit (FSTree α) :=
  match pyOpenWrite fs st.cwd filename (.hdf dfs) with
  | some fs2 => .ok fs2
  | none => .error ()

/-- The `for key in store.keys()` loop of `load_dict_of_dfs_hdf5`:
`dfs[key.strip('/')] = store[key]`.  The store reports each key with a
leading `'/'` prepended to the name it was saved under, so the net effect
of `strip('/')` on a saved key `k` is `pyStripSlash k`. -/
def hdf_load_loop : List (String × α) → List (String × α) → List (String × α)
  | [], acc => acc
  | kv :: rest, acc => hdf_load_loop rest (dictInsert acc (pyStripSlash kv.1) kv.2)

/-- `directories.load_dict_of_dfs_hdf5`: note there is *no* existence check —
`pd.HDFStore(path, mode='r')` raises when `cwd/filename` is absent. -/
def load_dict_of_dfs_hdf5 (fs : FSTree α) (st : DirState) (filename : String) :
    Except Unit (List (String × α)) :=
  match lookupT fs (st.cwd ++ [filename]) with
  | some (.file _ (.hdf tables)) => .ok (hdf_load_loop tables [])
  | _ => .error ()

/-- The `for key, df in dfs.items()` loop of `save_dict_of_dfs_csv`:
`df.to_csv(f(folder)/(key).csv)` — raises when `folder` is absent. -/
def save_csv_loop (folder : FPath) : FSTree α → List (String × α) →
    Except Unit (FSTree α)
  | fs, [] => .ok fs
  | fs, kv :: rest =>
    match pyOpenWrite fs folder (kv.1 ++ ".csv") (.csv kv.2) with
    | some fs2 => save_csv_loop folder fs2 rest
    | none => .error ()

/-- `directories.save_dict_of_dfs_csv` (the folder argument is used as
given, not joined with `cwd`). -/
def save_dict_of_dfs_csv (fs : FSTree α) (dfs : List (String × α)) (folder : FPath) :
    Except Unit (FSTree α) :=
  save_csv_loop folder fs dfs

/-- `pd.read_csv` on a path: succeeds exactly on a regular file written by
`to_csv`. -/
def read_csv (fs : FSTree α) (p : FPath) : Except Unit α :=
  match lookupT fs p with
  | some (.file _ (.csv v)) => .ok v
  | _ => .error ()

/-- The `for filename in os.listdir(folder)` loop of `load_dict_of_dfs_csv`:
keep names ending in `.csv`, key each loaded table by
`filename.split('.')[0]`. -/
def load_csv_loop (fs : FSTree α) (folder : FPath) : List String →
    List (String × α) → Except Unit (List (String × α))
  | [], acc => .ok acc
  | n :: rest, acc =>
    if pyEndsWith n ".csv" then
      match read_csv fs (folder ++ [n]) with
      | .ok v => load_csv_loop fs folder rest (dictInsert acc (pyFirstField n) v)
      | .error e => .error e
    else load_csv_loop fs folder rest acc

/-- `directories.load_dict_of_dfs_csv`: note there is *no* existence check —
`os.listdir(folder)` raises when `folder` is absent. -/
def load_dict_of_dfs_csv (fs : FSTree α) (folder : FPath) :
    Except Unit (List (String × α)) :=
  match listdir fs folder with
  | none => .error ()
  | some names => load_csv_loop fs folder names []

mutual
/-- Modelled from the spec (for claim C6): the plain pre-order,
listing-sibling-order traversal of the subdirectories of the tree `t`
mounted at `p` — each directory is listed *before* its own subtree, and a
full subtree precedes the next sibling.  This is the traversal the claim
asserts the downward search follows. -/
def preOrderT : FSTree α → FPath → List FPath
  | .file _ _, _ => []
  | .dir _ ch, p => preOrderCh ch p
/-- Pre-order subdirectory lists of the entries of a child list, in
listing order. -/
def preOrderCh : List (String × FSTree α) → FPath → List FPath
  | [], _ => []
  | e :: rest, p =>
    (if e.2.isDirNode then (p ++ [e.1]) :: preOrderT e.2 (p ++ [e.1]) else [])
      ++ preOrderCh rest p
end

/-- Modelled from the spec (for claim C6): pre-order subdirectory list of
the tree rooted at `p`. -/
def preOrderDirs (fs : FSTree α) (p : FPath) : List FPath :=
  match lookupT fs p with
  | some t => preOrderT t p
  | none => []

/-! ### Concrete fixtures used by witnesses and counterexamples -/

/-- C1 counterexample filesystem: `gp` contains `data`; the object sits at
`gp/a/b`, two levels below `gp`. -/
def fsCexC1 : FSTree Nat := .dir defStat [("gp", .dir defStat
  [("a", .dir defStat [("b", .dir defStat [])]), ("data", .dir defStat [])])]

/-- The `directories` state constructed at `gp/a/b` in `fsCexC1`. -/
def stCexC1 : DirState := ⟨["gp", "a", "b"], ["gp", "a"], [], none⟩

/-- An empty root directory. -/
def fsEmptyRoot : FSTree Nat := .dir defStat []

/-- A state whose current path is the root. -/
def stAtRoot : DirState := ⟨[], [], [], none⟩

/-- C4 fixture: a root containing `r/s`. -/
def fsNav : FSTree Nat := .dir defStat [("r", .dir defStat [("s", .dir defStat [])])]

/-- The `directories` state constructed at `r` in `fsNav`. -/
def stNav : DirState := ⟨["r"], [], ["s"], none⟩

/-- The state after `shift_dir` to `r/s` from `stNav`. -/
def stNavAfter : DirState := ⟨["r", "s"], [], [], none⟩

/-- C5 witness fixture: two regular files and one directory at the root. -/
def fsCount : FSTree Nat := .dir defStat
  [("f1", .file defStat .raw), ("d1", .dir defStat []), ("f2", .file defStat .raw)]

/-- C6 scenario fixture: current path `r` contains subdirectories `x` and
`y/data`. -/
def fsScenC6 : FSTree Nat := .dir defStat [("r", .dir defStat
  [("x", .dir defStat []), ("y", .dir defStat [("data", .dir defStat [])])])]

/-- State at `r` in `fsScenC6`. -/
def stScenC6 : DirState := ⟨["r"], [], ["x", "y"], none⟩

/-- C6 counterexample fixture: `r` contains `a/bx` and `b` (siblings stored
in lexicographic order). -/
def fsCexC6 : FSTree Nat := .dir defStat [("r", .dir defStat
  [("a", .dir defStat [("bx", .dir defStat [])]), ("b", .dir defStat [])])]

/-- State at `r` in `fsCexC6`. -/
def stCexC6 : DirState := ⟨["r"], [], ["a", "b"], none⟩

/-- C3 fixture: an empty directory `base`; the object sits in it. -/
def fsJoin : FSTree Nat := .dir defStat [("base", .dir defStat [])]

/-- State at `base` in `fsJoin`. -/
def stJoin : DirState := ⟨["base"], [], [], none⟩

/-- The filesystem actually produced by `join_path_with_keyword fsJoin stJoin
["a", "b"]`: `base/a` and `base/b`, with no `base/a/b`. -/
def fsJoinAfter : FSTree Nat := .dir defStat [("base", .dir defStat
  [("a", .dir defStat []), ("b", .dir defStat [])])]

/-- C8 fixture: an empty folder `f` at the root. -/
def fsFolder : FSTree Nat := .dir defStat [("f", .dir defStat [])]

/-- The filesystem after saving the one-entry collection `{"a.b": 5}` as CSV
into `f`. -/
def fsFolderDotSaved : FSTree Nat := .dir defStat [("f", .dir defStat
  [("a.b.csv", .file defStat (.csv 5))])]

/-- C9 witness fixture: a directory `d` with visible stat data
(`16877 = 0o40755`). -/
def fsInfo : FSTree Nat := .dir defStat [("d", .dir ⟨9, 7, 16877⟩ [])]

/-- C10 witness fixture: a folder `f` holding two CSV files (one with a
dotted name) and one non-CSV file. -/
def fsCsvMix : FSTree Nat := .dir defStat [("f", .dir defStat
  [("t1.csv", .file defStat (.csv 3)), ("notes.txt", .file defStat .raw),
   ("t2.x.csv", .file defStat (.csv 4))])]

/-! ### Basic lemmas about the filesystem model -/

theorem existsAt_and_isDirAt (fs : FSTree α) (p : FPath) :
    (existsAt fs p && isDirAt fs p) = isDirAt fs p := by
  unfold existsAt isDirAt
  cases h : lookupT fs p with
  | none => simp
  | some t => cases t <;> simp

theorem dropLast_ne_self {l : List String} (h : l ≠ []) : l ≠ l.dropLast := by
  intro heq
  have hlen := congrArg List.length heq
  rw [List.length_dropLast] at hlen
  have hpos : 0 < l.length := List.length_pos.mpr h
  omega

theorem sum_map_ite_eq_length_filter {β : Type} (l : List β) (p : β → Bool) :
    (l.map (fun i => if p i then 1 else 0)).sum = (l.filter p).length := by
  induction l with
  | nil => rfl
  | cons a l ih => by_cases h : p a <;> simp [h, ih, List.filter_cons] <;> omega

/-! ### Claim C9 -/

/-- Claim C9: `give_file_info` returns the `None` sentinel iff no filesystem
entry of the given name exists under the current path; on an existing
directory it still returns the info dictionary with that directory's size,
mtime and permission digits. -/
theorem claim_C9_thm (fs : FSTree α) (st : DirState) (name : String) :
    (give_file_info fs st name = none ↔ lookupT fs (st.cwd ++ [name]) = none)
    ∧ ∀ s ch, lookupT fs (st.cwd ++ [name]) = some (.dir s ch) →
        give_file_info fs st name =
          some ⟨name, s.size, s.mtime, pyLast3 (pyOct s.mode)⟩ := by
  constructor
  · unfold give_file_info
    cases h : lookupT fs (st.cwd ++ [name]) <;> simp [h]
  · intro s ch h
    simp [give_file_info, h, FSTree.statOf]

/-- Witness for C9: in `fsInfo`, the directory `d` gets a real info record,
with permission digits `755`. -/
theorem claim_C9_witness :
    give_file_info fsInfo stAtRoot "d" = some ⟨"d", 9, 7, "755"⟩ := by
  have h := (claim_C9_thm fsInfo stAtRoot "d").2 ⟨9, 7, 16877⟩ [] (by rfl)
  rw [h]
  decide

/-! ### Claim C7 -/

/-- Claim C7: `move_file` on a nonexistent source filename raises nothing,
reports failure, and returns with the filesystem (hence the destination
directory's contents and existence) and the object state unchanged. -/
theorem claim_C7_thm (fs : FSTree α) (st : DirState) (filename : String)
    (dest : FPath) (h : lookupT fs (st.cwd ++ [filename]) = none) :
    move_file fs st filename dest = .ok (fs, st, false) := by
  unfold move_file
  simp [existsAt, h]

/-- Witness for C7: moving the absent `nope` out of `fsInfo` is a logged
no-op. -/
theorem claim_C7_witness :
    move_file fsInfo stAtRoot "nope" ["dst"] = .ok (fsInfo, stAtRoot, false) :=
  claim_C7_thm fsInfo stAtRoot "nope" ["dst"] (by rfl)

/-! ### Claim C2 -/

/-- Claim C2 (amended): on an absent target, `load_json`, `load_pickle` and
`load_dict_of_dfs_pickle` return the `None` sentinel without raising, but
`load_dict_of_dfs_hdf5` and `load_dict_of_dfs_csv` raise. -/
theorem claim_C2_thm (fs : FSTree α) (st : DirState) (fn : String) (folder : FPath) :
    (lookupT fs (st.cwd ++ [fn]) = none →
      load_json fs st fn = .ok none ∧ load_pickle fs st fn = .ok none ∧
      load_dict_of_dfs_pickle fs st fn = .ok none ∧
      load_dict_of_dfs_hdf5 fs st fn = .error ())
    ∧ (lookupT fs folder = none → load_dict_of_dfs_csv fs folder = .error ()) := by
  constructor
  · intro h
    refine ⟨?_, ?_, ?_, ?_⟩ <;>
      simp [load_json, load_pickle, load_dict_of_dfs_pickle, load_dict_of_dfs_hdf5,
        existsAt, h]
  · intro h
    simp [load_dict_of_dfs_csv, listdir, h]

/-- Witness for C2: concrete absent targets under an empty root. -/
theorem claim_C2_witness :
    (load_json (α := Nat) fsEmptyRoot stAtRoot "a.json" = .ok none ∧
      load_pickle (α := Nat) fsEmptyRoot stAtRoot "a.pkl" = .ok none ∧
      load_dict_of_dfs_pickle (α := Nat) fsEmptyRoot stAtRoot "a.pkl" = .ok none ∧
      load_dict_of_dfs_hdf5 (α := Nat) fsEmptyRoot stAtRoot "a.h5" = .error ())
    ∧ load_dict_of_dfs_csv (α := Nat) fsEmptyRoot ["nofolder"] = .error () :=
  ⟨(claim_C2_thm fsEmptyRoot stAtRoot "a.json" ["nofolder"]).1 (by rfl),
   (claim_C2_thm fsEmptyRoot stAtRoot "a.json" ["nofolder"]).2 (by rfl)⟩

/-- Counterexample for C2 as stated: with the target file absent under an
empty root, the HDF5 and CSV collection loaders raise instead of returning
the `None` sentinel. -/
theorem claim_C2_cex :
    lookupT (α := Nat) fsEmptyRoot (stAtRoot.cwd ++ ["m.h5"]) = none ∧
    load_dict_of_dfs_hdf5 (α := Nat) fsEmptyRoot stAtRoot "m.h5" = .error () ∧
    lookupT (α := Nat) fsEmptyRoot ["nofolder"] = none ∧
    load_dict_of_dfs_csv (α := Nat) fsEmptyRoot ["nofolder"] = .error () :=
  ⟨rfl, rfl, rfl, rfl⟩

/-! ### Claim C4 -/

/-- Claim C4 (amended): after `shift_dir` returns, the cached listing
matches the new current path, but the cached parent-path field is *not*
refreshed — it keeps the value captured before the call. -/
theorem claim_C4_thm (fs : FSTree α) (st : DirState) (nd : FPath) (st' : DirState)
    (h : shift_dir fs st nd = .ok st') :
    st'.cwd = nd ∧ st'.files = (listdir fs nd).getD [] ∧
      st'.parent_dir = st.parent_dir := by
  unfold shift_dir at h
  split at h
  · cases h
    exact ⟨rfl, rfl, rfl⟩
  · cases h

/-- Witness for C4 (amended): navigating `stNav` into `r/s`. -/
theorem claim_C4_witness :
    stNavAfter.cwd = ["r", "s"] ∧
    stNavAfter.files = (listdir fsNav ["r", "s"]).getD [] ∧
    stNavAfter.parent_dir = stNav.parent_dir :=
  claim_C4_thm fsNav stNav ["r", "s"] stNavAfter (by rfl)

/-- Counterexample for C4 as stated: after navigating from `r` to `r/s` the
cached parent-path is still the construction-time `[]`, not the parent
`["r"]` of the new current path. -/
theorem claim_C4_cex :
    shift_dir fsNav stNav ["r", "s"] = .ok stNavAfter ∧
    stNavAfter.parent_dir ≠ stNavAfter.cwd.dropLast := by
  refine ⟨rfl, ?_⟩
  decide

/-! ### Claim C5 -/

/-- Claim C5: for either valid kind, `count_items` equals the number of
entries of `list_files` classified as that kind. -/
theorem claim_C5_thm (fs : FSTree α) (p : FPath) (t : String) (items : List String)
    (ht : t = "files" ∨ t = "directories") (hl : list_files fs p = .ok items) :
    count_items fs p t = .ok ((items.filter (fun i =>
      if t = "files" then isFileAt fs (p ++ [i]) else isDirAt fs (p ++ [i]))).length) := by
  have hld : listdir fs p = some items := by
    unfold list_files at hl
    cases h : listdir fs p <;> rw [h] at hl <;> simp_all
  rcases ht with h | h <;> subst h <;>
    simp [count_items, hld, sum_map_ite_eq_length_filter]

/-- Witness for C5: `fsCount` holds two files and one directory. -/
theorem claim_C5_witness :
    count_items fsCount [] "files" = .ok 2 ∧
    count_items fsCount [] "directories" = .ok 1 := by
  have h1 := claim_C5_thm fsCount [] "files" ["f1", "d1", "f2"] (Or.inl rfl) (by rfl)
  have h2 := claim_C5_thm fsCount [] "directories" ["f1", "d1", "f2"] (Or.inr rfl) (by rfl)
  exact ⟨h1.trans rfl, h2.trans rfl⟩

/-! ### Claim C1 -/

/-- Claim C1 (amended): starting from a freshly constructed state, the
upward search checks the current path first and its parent next, and stops:
the loop's bound `self.parent_dir` is the parent captured at construction,
which is reached after a single upward step, so a keyword directory present
only at the grandparent or higher is never found.  The call returns the
matched subdirectory path from the current path or its parent, and `None`
exactly when the search has reached the construction-time parent directory
without a match. -/
theorem claim_C1_thm (fs : FSTree α) (cwd : FPath) (fl : List String)
    (home : Option String) (kw : String) :
    find_closest_kw_folder_up fs ⟨cwd, cwd.dropLast, fl, home⟩ kw =
      some (if isDirAt fs (cwd ++ [kw]) then some (cwd ++ [kw])
        else if cwd ≠ [] ∧ isDirAt fs (cwd.dropLast ++ [kw]) then
          some (cwd.dropLast ++ [kw])
        else none) := by
  show find_up_loop fs kw cwd.dropLast (cwd.length + 1 + 1) cwd = _
  rw [find_up_loop]
  simp only [existsAt_and_isDirAt]
  by_cases h1 : isDirAt fs (cwd ++ [kw])
  · simp [h1]
  · by_cases h0 : cwd = []
    · subst h0
      simp only [List.nil_append] at h1 ⊢
      simp [h1]
    · have hne : (cwd == cwd.dropLast) = false := by
        simp only [beq_eq_false_iff_ne, ne_eq]
        exact dropLast_ne_self h0
      simp only [h1, if_false, Bool.false_eq_true, hne]
      rw [find_up_loop]
      simp only [existsAt_and_isDirAt]
      by_cases h2 : isDirAt fs (cwd.dropLast ++ [kw])
      · simp [h1, h2, h0]
      · simp [h1, h2, h0]

/-- Counterexample for C1 as stated: in `fsCexC1` the grandparent `gp` of
the current path `gp/a/b` contains a `data` subdirectory while the current
path and its parent do not, yet the search returns `None` instead of
`gp/data` — it never climbs past the construction-time parent. -/
theorem claim_C1_cex :
    directories_init fsCexC1 ["gp", "a", "b"] none = .ok stCexC1 ∧
    isDirAt fsCexC1 ["gp", "data"] = true ∧
    isDirAt fsCexC1 ["gp", "a", "b", "data"] = false ∧
    isDirAt fsCexC1 ["gp", "a", "data"] = false ∧
    find_closest_kw_folder_up fsCexC1 stCexC1 "data" = some none :=
  ⟨rfl, rfl, rfl, rfl, rfl⟩

/-! ### Claim C3 -/

/-- Claim C3: evaluation at the failing input.  On an empty current
directory, `join_path_with_keyword ["a", "b"]` creates `base/a` and then
`base/b` — not `base/a/b` — because `construct_dir` is passed the bare
keyword, which `os.makedirs` resolves against the process working
directory.  The returned path `base/a/b` does not exist, and a second
identical call raises (`os.makedirs("b")` hits the existing `base/b`). -/
theorem claim_C3_thm :
    join_path_with_keyword fsJoin stJoin ["a", "b"] =
      .ok (fsJoinAfter, ["base", "a", "b"]) ∧
    existsAt fsJoinAfter ["base", "a", "b"] = false ∧
    isDirAt fsJoinAfter ["base", "a"] = true ∧
    isDirAt fsJoinAfter ["base", "b"] = true ∧
    join_path_with_keyword fsJoinAfter stJoin ["a", "b"] = .error () :=
  ⟨rfl, rfl, rfl, rfl, rfl⟩

/-! ### Claim C6 -/

theorem getLast?_append_singleton {β : Type} (l : List β) (a : β) :
    (l ++ [a]).getLast? = some a := by
  induction l with
  | nil => rfl
  | cons x xs ih =>
    rw [List.cons_append, List.getLast?_cons, ih]
    rfl

theorem find_mapped_append (kw : String) (r : FPath) (ds : List String)
    (tail : List FPath) :
    ((ds.map (fun d => r ++ [d])) ++ tail).find?
        (fun q => pyIn kw (q.getLast?.getD "")) =
      match ds.find? (fun d => pyIn kw d) with
      | some d => some (r ++ [d])
      | none => tail.find? (fun q => pyIn kw (q.getLast?.getD "")) := by
  induction ds with
  | nil => simp
  | cons d ds ih =>
    by_cases h : pyIn kw d
    · simp [List.find?_cons, getLast?_append_singleton, h]
    · simp [List.find?_cons, getLast?_append_singleton, h, ih]

theorem scanTuples_eq_find (kw : String) (L : List (FPath × List String)) :
    scanTuplesForKw kw L =
      (L.flatMap (fun rd => rd.2.map (fun d => rd.1 ++ [d]))).find?
        (fun q => pyIn kw (q.getLast?.getD "")) := by
  induction L with
  | nil => rfl
  | cons rd rest ih =>
    obtain ⟨r, ds⟩ := rd
    rw [scanTuplesForKw, List.flatMap_cons, find_mapped_append]
    cases h : ds.find? (fun d => pyIn kw d) <;> simp [h, ih]

/-- Claim C6 (amended): the downward search returns the first match in the
order in which the `os.walk` scan actually checks names — for each triple of
the pre-order, listing-sibling-order walk, *all* immediate subdirectory
names of that directory are checked (in listing order) before any deeper
triple is reached; the match is on substring containment of the keyword in
the subdirectory name.  In particular, with subdirectories `x` and `y/data`
and no other match, `find_closest_kw_folder_down "data"` returns `y/data`. -/
theorem claim_C6_thm :
    (∀ (fs : FSTree α) (st : DirState) (kw : String),
      find_closest_kw_folder_down fs st kw =
        ((pyWalk fs st.cwd).flatMap (fun rd => rd.2.map (fun d => rd.1 ++ [d]))).find?
          (fun q => pyIn kw (q.getLast?.getD ""))) ∧
    find_closest_kw_folder_down fsScenC6 stScenC6 "data" = some ["r", "y", "data"] := by
  constructor
  · intro fs st kw
    exact scanTuples_eq_find kw (pyWalk fs st.cwd)
  · rfl

/-- Counterexample for C6 as stated: in `fsCexC6` (siblings already in
lexicographic order) the plain pre-order traversal meets `a/bx` — whose
name contains `"b"` — before the sibling `b`, but the code returns `r/b`:
`os.walk` checks both top-level names before descending into `a`. -/
theorem claim_C6_cex :
    find_closest_kw_folder_down fsCexC6 stCexC6 "b" = some ["r", "b"] ∧
    (preOrderDirs fsCexC6 ["r"]).find? (fun q => pyIn "b" (q.getLast?.getD "")) =
      some ["r", "a", "bx"] ∧
    find_closest_kw_folder_down fsCexC6 stCexC6 "b" ≠
      (preOrderDirs fsCexC6 ["r"]).find? (fun q => pyIn "b" (q.getLast?.getD "")) :=
  ⟨rfl, rfl, by decide⟩

/-! ### Lookup and modification lemmas -/

theorem lookupT_nil (t : FSTree α) : lookupT t [] = some t := by
  cases t <;> rfl

theorem lookupT_cons (s0 : Stat) (ch0 : List (String × FSTree α)) (n : String)
    (rest : FPath) :
    lookupT (.dir s0 ch0 : FSTree α) (n :: rest) =
      match lookupChild ch0 n with
      | some t => lookupT t rest
      | none => none := rfl

theorem modifyDirAt_cons (s0 : Stat) (ch0 : List (String × FSTree α)) (n : String)
    (rest : FPath) (f : Stat → List (String × FSTree α) → Option (FSTree α)) :
    modifyDirAt (.dir s0 ch0 : FSTree α) (n :: rest) f =
      match lookupChild ch0 n with
      | some t =>
        match modifyDirAt t rest f with
        | some t2 => some (.dir s0 (replaceChild ch0 n t2))
        | none => none
      | none => none := rfl

theorem lookupT_append (fs : FSTree α) (p q : FPath) :
    lookupT fs (p ++ q) = (lookupT fs p).bind (fun t => lookupT t q) := by
  induction p generalizing fs with
  | nil => simp [lookupT_nil]
  | cons n rest ih =>
    cases fs with
    | file s d => simp [lookupT]
    | dir s ch =>
      rw [List.cons_append, lookupT_cons, lookupT_cons]
      cases h : lookupChild ch n with
      | some t => simp [ih]
      | none => simp

theorem lookupChild_replaceChild (ch : List (String × FSTree α)) (n : String)
    (t : FSTree α) :
    lookupChild (replaceChild ch n t) n = (lookupChild ch n).map (fun _ => t) := by
  induction ch with
  | nil => rfl
  | cons e rest ih =>
    show lookupChild ((if e.1 == n then (n, t) else e) :: replaceChild rest n t) n = _
    cases hb : (e.1 == n) with
    | true => simp [lookupChild, hb]
    | false => simp [lookupChild, hb, ih]

theorem lookupChild_append_right {l1 l2 : List (String × FSTree α)} {n : String}
    (h : lookupChild l1 n = none) :
    lookupChild (l1 ++ l2) n = lookupChild l2 n := by
  induction l1 with
  | nil => rfl
  | cons e rest ih =>
    cases hb : (e.1 == n) with
    | true => simp [lookupChild, hb] at h
    | false =>
      simp only [lookupChild, hb] at h
      simp only [List.cons_append, lookupChild, hb]
      simp only [Bool.false_eq_true, if_false] at h ⊢
      exact ih h

theorem modifyDirAt_ok {fs fs' : FSTree α} {p : FPath}
    {f : Stat → List (String × FSTree α) → Option (FSTree α)}
    (h : modifyDirAt fs p f = some fs') :
    ∃ s ch t, lookupT fs p = some (.dir s ch) ∧ f s ch = some t ∧
      lookupT fs' p = some t := by
  induction p generalizing fs fs' with
  | nil =>
    cases fs with
    | file s d => simp [modifyDirAt] at h
    | dir s ch => exact ⟨s, ch, fs', lookupT_nil _, h, lookupT_nil _⟩
  | cons n rest ih =>
    cases fs with
    | file s d => simp [modifyDirAt] at h
    | dir s0 ch0 =>
      rw [modifyDirAt_cons] at h
      split at h
      case h_2 hc => cases h
      case h_1 t0 hc =>
        split at h
        case h_2 hm => cases h
        case h_1 t2 hm =>
          cases h
          obtain ⟨s, ch, t, h1, h2, h3⟩ := ih hm
          refine ⟨s, ch, t, ?_, h2, ?_⟩
          · rw [lookupT_cons, hc]
            exact h1
          · rw [lookupT_cons, lookupChild_replaceChild, hc]
            exact h3

theorem modifyDirAt_of_lookup {fs : FSTree α} {p : FPath} {s : Stat}
    {ch : List (String × FSTree α)} (h : lookupT fs p = some (.dir s ch))
    (f : Stat → List (String × FSTree α) → Option (FSTree α)) {t : FSTree α}
    (hf : f s ch = some t) :
    ∃ fs', modifyDirAt fs p f = some fs' ∧ lookupT fs' p = some t := by
  induction p generalizing fs with
  | nil =>
    cases fs with
    | file s0 d => simp [lookupT] at h
    | dir s0 ch0 =>
      rw [lookupT_nil] at h
      injection h with h'
      injection h' with hs hch
      refine ⟨t, ?_, lookupT_nil _⟩
      show f s0 ch0 = some t
      rw [hs, hch]
      exact hf
  | cons n rest ih =>
    cases fs with
    | file s0 d => simp [lookupT] at h
    | dir s0 ch0 =>
      rw [lookupT_cons] at h
      split at h
      case h_2 hc => cases h
      case h_1 t0 hc =>
        obtain ⟨fs2, hm, hl⟩ := ih h
        refine ⟨.dir s0 (replaceChild ch0 n fs2), ?_, ?_⟩
        · rw [modifyDirAt_cons, hc]
          show (match modifyDirAt t0 rest f with
            | some t2 => some (FSTree.dir s0 (replaceChild ch0 n t2))
            | none => none) = _
          rw [hm]
        · rw [lookupT_cons, lookupChild_replaceChild, hc]
          exact hl

theorem pyOpenWrite_lookup {fs fs' : FSTree α} {parent : FPath} {name : String}
    {d : FData α} (h : pyOpenWrite fs parent name d = some fs') :
    lookupT fs' (parent ++ [name]) = some (.file defStat d) := by
  obtain ⟨s, ch, t, h1, h2, h3⟩ := modifyDirAt_ok h
  rw [lookupT_append, h3]
  show lookupT t [name] = _
  revert h2
  cases hc : lookupChild ch name with
  | none =>
    intro h2
    have h2' : some (FSTree.dir s (ch ++ [(name, FSTree.file defStat d)])) = some t := h2
    injection h2' with h2''
    subst h2''
    rw [lookupT_cons, lookupChild_append_right hc]
    simp [lookupChild, lookupT_nil]
  | some t0 =>
    cases t0 with
    | dir s2 ch2 =>
      intro h2
      have h2' : (none : Option (FSTree α)) = some t := h2
      cases h2'
    | file s2 d2 =>
      intro h2
      have h2' : some (FSTree.dir s (replaceChild ch name (FSTree.file defStat d))) =
          some t := h2
      injection h2' with h2''
      subst h2''
      rw [lookupT_cons, lookupChild_replaceChild, hc]
      simp [lookupT_nil]

theorem pyOpenWrite_fresh {fs : FSTree α} {folder : FPath} {s : Stat}
    {ch : List (String × FSTree α)} (h : lookupT fs folder = some (.dir s ch))
    {name : String} (hn : lookupChild ch name = none) (d : FData α) :
    ∃ fs', pyOpenWrite fs folder name d = some fs' ∧
      lookupT fs' folder = some (.dir s (ch ++ [(name, .file defStat d)])) := by
  unfold pyOpenWrite
  exact modifyDirAt_of_lookup h _ (by rw [hn])

/-! ### Dictionary lemmas -/

theorem dictInsert_fresh {β : Type u} {d : List (String × β)} {k : String}
    (h : d.any (fun e => e.1 == k) = false) (v : β) :
    dictInsert d k v = d ++ [(k, v)] := by
  simp [dictInsert, h]

theorem keys_replace {β : Type u} (d : List (String × β)) (k : String) (v : β) :
    (d.map (fun e => if e.1 == k then (k, v) else e)).map (·.1) = d.map (·.1) := by
  induction d with
  | nil => rfl
  | cons e rest ih =>
    simp only [List.map_cons, ih]
    by_cases h : e.1 = k <;> simp [h]

theorem mem_keys_dictInsert {β : Type u} (d : List (String × β)) (k : String) (v : β)
    (q : String) :
    q ∈ (dictInsert d k v).map (·.1) ↔ (q ∈ d.map (·.1) ∨ q = k) := by
  by_cases h : d.any (fun e => e.1 == k)
  · have hk : k ∈ d.map (·.1) := by
      rcases List.any_eq_true.mp h with ⟨e, he, hek⟩
      rw [beq_iff_eq] at hek
      exact hek ▸ List.mem_map_of_mem _ he
    rw [show dictInsert d k v = d.map (fun e => if e.1 == k then (k, v) else e) by
      simp [dictInsert, h]]
    rw [keys_replace]
    exact ⟨Or.inl, fun hh => hh.elim id (fun hq => hq ▸ hk)⟩
  · rw [dictInsert_fresh (by simp only [Bool.not_eq_true] at h; exact h) v]
    simp

/-! ### String lemmas -/

theorem listPrefixOfB_append_self (l m : List Char) : listPrefixOfB l (l ++ m) = true := by
  induction l with
  | nil => rfl
  | cons a as ih => simp [listPrefixOfB, ih]

theorem string_toList_append (a b : String) : (a ++ b).toList = a.toList ++ b.toList :=
  rfl

theorem stringMk_toList (s : String) : String.mk s.toList = s :=
  rfl

theorem pyEndsWith_append_csv (k : String) : pyEndsWith (k ++ ".csv") ".csv" = true := by
  unfold pyEndsWith
  rw [string_toList_append, List.reverse_append]
  exact listPrefixOfB_append_self _ _

theorem takeWhile_ne_dot_append (l m : List Char) :
    ((l ++ '.' :: m).takeWhile (fun c => c ≠ '.')) = l.takeWhile (fun c => c ≠ '.') := by
  induction l with
  | nil =>
    show List.takeWhile (fun c => decide (c ≠ '.')) ('.' :: m) = _
    rw [List.takeWhile_cons, if_neg (by decide)]
    rfl
  | cons a as ih =>
    rw [List.cons_append, List.takeWhile_cons, List.takeWhile_cons]
    by_cases h : a = '.'
    · rw [if_neg (by simp [h]), if_neg (by simp [h])]
    · rw [if_pos (by simp [h]), if_pos (by simp [h]), ih]

theorem pyFirstField_append_csv (k : String) :
    pyFirstField (k ++ ".csv") = pyFirstField k := by
  unfold pyFirstField
  rw [string_toList_append,
    show (".csv".toList) = '.' :: ['c', 's', 'v'] from rfl,
    takeWhile_ne_dot_append]

theorem takeWhile_all_ne_dot {l : List Char} (h : ∀ c ∈ l, c ≠ '.') :
    l.takeWhile (fun c => c ≠ '.') = l := by
  induction l with
  | nil => rfl
  | cons a as ih =>
    rw [List.takeWhile_cons, if_pos (by simp [h a (List.mem_cons_self a as)]),
      ih (fun c hc => h c (List.mem_cons_of_mem _ hc))]

theorem pyFirstField_of_no_dot {k : String} (h : ∀ c ∈ k.toList, c ≠ '.') :
    pyFirstField k = k := by
  unfold pyFirstField
  rw [takeWhile_all_ne_dot h]
  exact stringMk_toList k

theorem string_append_right_cancel {a b s : String} (h : a ++ s = b ++ s) : a = b := by
  have hd : a.toList ++ s.toList = b.toList ++ s.toList := by
    rw [← string_toList_append, ← string_toList_append, h]
  have hab : a.toList = b.toList := List.append_cancel_right hd
  calc a = String.mk a.toList := (stringMk_toList a).symm
    _ = String.mk b.toList := by rw [hab]
    _ = b := stringMk_toList b

theorem lookupChild_of_mem_nodup {l : List (String × FSTree α)}
    (hnd : (l.map (·.1)).Nodup) {k : String} {v : FSTree α} (hm : (k, v) ∈ l) :
    lookupChild l k = some v := by
  induction l with
  | nil => cases hm
  | cons e rest ih =>
    rcases List.mem_cons.mp hm with he | hrest
    · cases he
      simp [lookupChild]
    · have hk : k ∈ rest.map (·.1) := List.mem_map_of_mem (·.1) hrest
      have hne : e.1 ≠ k := by
        intro hEq
        refine (List.nodup_cons.mp hnd).1 ?_
        show e.1 ∈ rest.map (fun x => x.1)
        rw [hEq]
        exact hk
      have hb : (e.1 == k) = false := by simp [hne]
      simp [lookupChild, hb, ih (List.nodup_cons.mp hnd).2 hrest]

/-! ### Serialization loop lemmas -/

theorem load_csv_loop_cons (fs : FSTree α) (folder : FPath) (n : String)
    (rest : List String) (acc : List (String × α)) :
    load_csv_loop fs folder (n :: rest) acc =
      if pyEndsWith n ".csv" then
        match read_csv fs (folder ++ [n]) with
        | .ok v => load_csv_loop fs folder rest (dictInsert acc (pyFirstField n) v)
        | .error e => .error e
      else load_csv_loop fs folder rest acc := rfl

theorem save_csv_loop_cons (folder : FPath) (fs : FSTree α) (kv : String × α)
    (rest : List (String × α)) :
    save_csv_loop folder fs (kv :: rest) =
      match pyOpenWrite fs folder (kv.1 ++ ".csv") (.csv kv.2) with
      | some fs2 => save_csv_loop folder fs2 rest
      | none => .error () := rfl

theorem hdf_load_loop_exact :
    ∀ (d acc : List (String × α)),
      (∀ kv ∈ d, pyStripSlash kv.1 = kv.1) →
      ((d.map (·.1)).Nodup) →
      (∀ k ∈ d.map (·.1), acc.any (fun e => e.1 == k) = false) →
      hdf_load_loop d acc = acc ++ d := by
  intro d
  induction d with
  | nil =>
    intro acc _ _ _
    simp [hdf_load_loop]
  | cons kv rest ih =>
    obtain ⟨k1, v1⟩ := kv
    intro acc hstrip hnd hfresh
    show hdf_load_loop rest (dictInsert acc (pyStripSlash k1) v1) = _
    rw [hstrip (k1, v1) (List.mem_cons_self _ _)]
    rw [dictInsert_fresh (hfresh k1 (by simp)) v1]
    have hnd2 : (k1 :: rest.map (·.1)).Nodup := by simpa using hnd
    have hum : k1 ∉ rest.map (·.1) := (List.nodup_cons.mp hnd2).1
    have hfresh2 : ∀ k ∈ rest.map (·.1),
        ((acc ++ [(k1, v1)]).any (fun e => e.1 == k)) = false := by
      intro k hk
      rw [List.any_append]
      have h1 : acc.any (fun e => e.1 == k) = false := hfresh k (by simp [hk])
      have hne : k1 ≠ k := fun hEq => hum (by rw [hEq]; exact hk)
      have h2 : ([(k1, v1)] : List (String × α)).any (fun e => e.1 == k) = false := by
        simp [hne]
      rw [h1, h2]
      rfl
    rw [ih (acc ++ [(k1, v1)]) (fun x hx => hstrip x (List.mem_cons_of_mem _ hx))
      (List.nodup_cons.mp hnd2).2 hfresh2]
    simp

theorem load_csv_loop_exact {fs : FSTree α} {folder : FPath} :
    ∀ (d acc : List (String × α)),
      (∀ kv ∈ d, read_csv fs (folder ++ [kv.1 ++ ".csv"]) = .ok kv.2) →
      (∀ kv ∈ d, pyFirstField (kv.1 ++ ".csv") = kv.1) →
      ((d.map (·.1)).Nodup) →
      (∀ k ∈ d.map (·.1), acc.any (fun e => e.1 == k) = false) →
      load_csv_loop fs folder (d.map (fun kv => kv.1 ++ ".csv")) acc =
        .ok (acc ++ d) := by
  intro d
  induction d with
  | nil =>
    intro acc _ _ _ _
    simp [load_csv_loop]
  | cons kv rest ih =>
    obtain ⟨k1, v1⟩ := kv
    intro acc hread hff hnd hfresh
    rw [List.map_cons, load_csv_loop_cons, if_pos (pyEndsWith_append_csv k1),
      hread (k1, v1) (List.mem_cons_self _ _)]
    show load_csv_loop fs folder (rest.map (fun kv => kv.1 ++ ".csv"))
      (dictInsert acc (pyFirstField (k1 ++ ".csv")) v1) = _
    rw [hff (k1, v1) (List.mem_cons_self _ _)]
    rw [dictInsert_fresh (hfresh k1 (by simp)) v1]
    have hnd2 : (k1 :: rest.map (·.1)).Nodup := by simpa using hnd
    have hum : k1 ∉ rest.map (·.1) := (List.nodup_cons.mp hnd2).1
    have hfresh2 : ∀ k ∈ rest.map (·.1),
        ((acc ++ [(k1, v1)]).any (fun e => e.1 == k)) = false := by
      intro k hk
      rw [List.any_append]
      have h1 : acc.any (fun e => e.1 == k) = false := hfresh k (by simp [hk])
      have hne : k1 ≠ k := fun hEq => hum (by rw [hEq]; exact hk)
      have h2 : ([(k1, v1)] : List (String × α)).any (fun e => e.1 == k) = false := by
        simp [hne]
      rw [h1, h2]
      rfl
    rw [ih (acc ++ [(k1, v1)]) (fun x hx => hread x (List.mem_cons_of_mem _ hx))
      (fun x hx => hff x (List.mem_cons_of_mem _ hx))
      (List.nodup_cons.mp hnd2).2 hfresh2]
    simp

theorem load_csv_loop_keys {fs : FSTree α} {folder : FPath} :
    ∀ (names : List String) (acc : List (String × α)),
      (∀ n ∈ names, pyEndsWith n ".csv" = true →
        ∃ v, read_csv fs (folder ++ [n]) = .ok v) →
      ∃ out, load_csv_loop fs folder names acc = .ok out ∧
        ∀ q, q ∈ out.map (·.1) ↔
          (q ∈ acc.map (·.1) ∨
            q ∈ (names.filter (fun n => pyEndsWith n ".csv")).map pyFirstField) := by
  intro names
  induction names with
  | nil =>
    intro acc _
    exact ⟨acc, rfl, by simp⟩
  | cons n rest ih =>
    intro acc hread
    by_cases he : pyEndsWith n ".csv" = true
    · obtain ⟨v, hv⟩ := hread n (List.mem_cons_self _ _) he
      obtain ⟨out, hout, hkeys⟩ := ih (dictInsert acc (pyFirstField n) v)
        (fun m hm hme => hread m (List.mem_cons_of_mem _ hm) hme)
      refine ⟨out, ?_, ?_⟩
      · rw [load_csv_loop_cons, if_pos he, hv]
        exact hout
      · intro q
        rw [hkeys q, mem_keys_dictInsert]
        simp only [List.filter_cons, he, if_pos, List.map_cons, List.mem_cons]
        tauto
    · have he' : pyEndsWith n ".csv" = false := by
        cases hb : pyEndsWith n ".csv"
        · rfl
        · exact absurd hb he
      obtain ⟨out, hout, hkeys⟩ := ih acc
        (fun m hm hme => hread m (List.mem_cons_of_mem _ hm) hme)
      refine ⟨out, ?_, ?_⟩
      · rw [load_csv_loop_cons, if_neg (by simp [he'])]
        exact hout
      · intro q
        rw [hkeys q]
        simp [List.filter_cons, he']

theorem save_csv_loop_spec {folder : FPath} :
    ∀ (d : List (String × α)) (fs : FSTree α) (s : Stat)
      (ch : List (String × FSTree α)),
      lookupT fs folder = some (.dir s ch) →
      (∀ kv ∈ d, lookupChild ch (kv.1 ++ ".csv") = none) →
      ((d.map (fun kv => kv.1 ++ ".csv")).Nodup) →
      ∃ fs', save_csv_loop folder fs d = .ok fs' ∧
        lookupT fs' folder = some (.dir s (ch ++ d.map (fun kv =>
          (kv.1 ++ ".csv", FSTree.file defStat (.csv kv.2))))) := by
  intro d
  induction d with
  | nil =>
    intro fs s ch h _ _
    exact ⟨fs, rfl, by simpa using h⟩
  | cons kv rest ih =>
    obtain ⟨k1, v1⟩ := kv
    intro fs s ch h hfresh hnd
    obtain ⟨fs1, hw, hl1⟩ :=
      pyOpenWrite_fresh h (hfresh (k1, v1) (List.mem_cons_self _ _)) (.csv v1)
    have hnd2 : ((k1 ++ ".csv") :: rest.map (fun kv => kv.1 ++ ".csv")).Nodup := by
      simpa using hnd
    have hfresh2 : ∀ kv' ∈ rest,
        lookupChild (ch ++ [(k1 ++ ".csv", FSTree.file defStat (FData.csv v1))])
          (kv'.1 ++ ".csv") = none := by
      intro kv' hkv'
      rw [lookupChild_append_right (hfresh kv' (List.mem_cons_of_mem _ hkv'))]
      have hmem : kv'.1 ++ ".csv" ∈ rest.map (fun kv => kv.1 ++ ".csv") :=
        List.mem_map_of_mem _ hkv'
      have hne : (k1 ++ ".csv") ≠ (kv'.1 ++ ".csv") := by
        intro hEq
        refine (List.nodup_cons.mp hnd2).1 ?_
        rw [hEq]
        exact hmem
      simp [lookupChild, hne]
    obtain ⟨fs', hsave, hl⟩ :=
      ih fs1 s (ch ++ [(k1 ++ ".csv", FSTree.file defStat (FData.csv v1))]) hl1
        hfresh2 (List.nodup_cons.mp hnd2).2
    refine ⟨fs', ?_, ?_⟩
    · rw [save_csv_loop_cons, hw]
      exact hsave
    · rw [hl]
      simp

/-! ### Claim C8 -/

/-- Claim C8 (amended): immediate save-then-load round-trips hold for the
JSON, pickle and dict-of-DataFrames-pickle wrappers for every payload; for
the HDF5 collection wrapper whenever no saved name has a leading or
trailing `'/'` (the store reports keys slash-prefixed and the loader strips
slashes) and names are distinct; and for the per-table CSV folder wrapper
into a fresh empty folder whenever no saved name contains a `'.'` (the
loader truncates each filename at its first dot) and names are distinct. -/
theorem claim_C8_thm :
    (∀ (fs : FSTree α) (st : DirState) (x : α) (fn : String) (fs' : FSTree α),
      save_json fs st x fn = .ok fs' → load_json fs' st fn = .ok (some x)) ∧
    (∀ (fs : FSTree α) (st : DirState) (x : α) (fn : String) (fs' : FSTree α),
      save_pickle fs st x fn = .ok fs' → load_pickle fs' st fn = .ok (some x)) ∧
    (∀ (fs : FSTree α) (st : DirState) (d : List (String × α)) (fn : String)
      (fs' : FSTree α),
      save_dict_of_dfs_pickle fs st d fn = .ok fs' →
        load_dict_of_dfs_pickle fs' st fn = .ok (some d)) ∧
    (∀ (fs : FSTree α) (st : DirState) (d : List (String × α)) (fn : String)
      (fs' : FSTree α),
      (∀ k ∈ d.map (·.1), pyStripSlash k = k) → (d.map (·.1)).Nodup →
      save_dict_of_dfs_hdf5 fs st d fn = .ok fs' →
        load_dict_of_dfs_hdf5 fs' st fn = .ok d) ∧
    (∀ (fs : FSTree α) (folder : FPath) (s : Stat) (d : List (String × α)),
      lookupT fs folder = some (.dir s []) → (d.map (·.1)).Nodup →
      (∀ k ∈ d.map (·.1), ∀ c ∈ k.toList, c ≠ '.') →
      ∃ fs', save_dict_of_dfs_csv fs d folder = .ok fs' ∧
        load_dict_of_dfs_csv fs' folder = .ok d) := by
  refine ⟨?_, ?_, ?_, ?_, ?_⟩
  · intro fs st x fn fs' h
    unfold save_json at h
    split at h
    next fs2 hw =>
      cases h
      have hlk := pyOpenWrite_lookup hw
      simp [load_json, existsAt, hlk]
    next => cases h
  · intro fs st x fn fs' h
    unfold save_pickle at h
    split at h
    next fs2 hw =>
      cases h
      have hlk := pyOpenWrite_lookup hw
      simp [load_pickle, existsAt, hlk]
    next => cases h
  · intro fs st d fn fs' h
    unfold save_dict_of_dfs_pickle at h
    split at h
    next fs2 hw =>
      cases h
      have hlk := pyOpenWrite_lookup hw
      simp [load_dict_of_dfs_pickle, existsAt, hlk]
    next => cases h
  · intro fs st d fn fs' hstrip hnd h
    unfold save_dict_of_dfs_hdf5 at h
    split at h
    next fs2 hw =>
      cases h
      have hlk := pyOpenWrite_lookup hw
      have hloop := hdf_load_loop_exact d []
        (fun kv hkv => hstrip kv.1 (List.mem_map_of_mem _ hkv)) hnd
        (fun k _ => rfl)
      simp [load_dict_of_dfs_hdf5, hlk, hloop]
    next => cases h
  · intro fs folder s d hdir hnd hnodot
    have hinj : Function.Injective (fun k : String => k ++ ".csv") :=
      fun a b hEq => string_append_right_cancel hEq
    have hndm : (d.map (fun kv => kv.1 ++ ".csv")).Nodup := by
      have : d.map (fun kv => kv.1 ++ ".csv") =
          (d.map (·.1)).map (fun k => k ++ ".csv") := by
        simp [List.map_map]
      rw [this]
      exact hnd.map hinj
    obtain ⟨fs', hsave, hl⟩ :=
      save_csv_loop_spec d fs s [] hdir (fun kv _ => rfl) hndm
    rw [List.nil_append] at hl
    refine ⟨fs', hsave, ?_⟩
    have hnames :
        ((d.map (fun kv => (kv.1 ++ ".csv", FSTree.file defStat (FData.csv kv.2)))).map
          (·.1)) = d.map (fun kv => kv.1 ++ ".csv") := by
      simp [List.map_map]
    have hld : listdir fs' folder = some (d.map (fun kv => kv.1 ++ ".csv")) := by
      simp only [listdir, hl, hnames]
    have hkeysnodup :
        ((d.map (fun kv =>
          (kv.1 ++ ".csv", FSTree.file defStat (FData.csv kv.2)))).map (·.1)).Nodup := by
      rw [hnames]
      exact hndm
    have hread : ∀ kv ∈ d, read_csv fs' (folder ++ [kv.1 ++ ".csv"]) = .ok kv.2 := by
      intro kv hkv
      have hmem : ((kv.1 ++ ".csv", FSTree.file defStat (FData.csv kv.2)) :
          String × FSTree α) ∈
          d.map (fun kv => (kv.1 ++ ".csv", FSTree.file defStat (FData.csv kv.2))) :=
        List.mem_map_of_mem _ hkv
      have hc := lookupChild_of_mem_nodup hkeysnodup hmem
      have hlf : lookupT fs' (folder ++ [kv.1 ++ ".csv"]) =
          some (.file defStat (.csv kv.2)) := by
        rw [lookupT_append, hl]
        show lookupT (FSTree.dir s _) [kv.1 ++ ".csv"] = _
        rw [lookupT_cons, hc]
        exact lookupT_nil _
      unfold read_csv
      rw [hlf]
    have hff : ∀ kv ∈ d, pyFirstField (kv.1 ++ ".csv") = kv.1 := by
      intro kv hkv
      rw [pyFirstField_append_csv]
      exact pyFirstField_of_no_dot (hnodot kv.1 (List.mem_map_of_mem _ hkv))
    unfold load_dict_of_dfs_csv
    rw [hld]
    exact load_csv_loop_exact d [] hread hff hnd (fun k _ => rfl)

/-- Witness for C8 (amended): one concrete round-trip per format. -/
theorem claim_C8_witness :
    load_json (FSTree.dir defStat [("x.json", FSTree.file defStat
        (FData.json (7 : Nat)))]) stAtRoot "x.json" = .ok (some 7) ∧
    load_pickle (FSTree.dir defStat [("x.pkl", FSTree.file defStat
        (FData.pkl (8 : Nat)))]) stAtRoot "x.pkl" = .ok (some 8) ∧
    load_dict_of_dfs_pickle (FSTree.dir defStat [("d.pkl", FSTree.file defStat
        (FData.pklDict [("t", (9 : Nat))]))]) stAtRoot "d.pkl" = .ok (some [("t", 9)]) ∧
    load_dict_of_dfs_hdf5 (FSTree.dir defStat [("d.h5", FSTree.file defStat
        (FData.hdf [("k1", (3 : Nat)), ("k2", 4)]))]) stAtRoot "d.h5" =
      .ok [("k1", 3), ("k2", 4)] ∧
    ∃ fs', save_dict_of_dfs_csv fsFolder [("k1", (3 : Nat)), ("k2", 4)] ["f"] = .ok fs' ∧
      load_dict_of_dfs_csv fs' ["f"] = .ok [("k1", 3), ("k2", 4)] := by
  refine ⟨?_, ?_, ?_, ?_, ?_⟩
  · exact claim_C8_thm.1 fsEmptyRoot stAtRoot 7 "x.json" _ rfl
  · exact claim_C8_thm.2.1 fsEmptyRoot stAtRoot 8 "x.pkl" _ rfl
  · exact claim_C8_thm.2.2.1 fsEmptyRoot stAtRoot [("t", 9)] "d.pkl" _ rfl
  · exact claim_C8_thm.2.2.2.1 fsEmptyRoot stAtRoot [("k1", 3), ("k2", 4)] "d.h5" _
      (by decide) (by decide) rfl
  · exact claim_C8_thm.2.2.2.2 fsFolder ["f"] defStat [("k1", 3), ("k2", 4)] rfl
      (by decide) (by decide)

/-- Counterexample for C8 as stated: saving the collection `{"a.b": 5}` as
per-table CSV files and loading it back yields `{"a": 5}` — the loader keys
each table by the filename prefix before the first dot, so the round-trip
is not the identity for every input. -/
theorem claim_C8_cex :
    save_dict_of_dfs_csv fsFolder [("a.b", 5)] ["f"] = .ok fsFolderDotSaved ∧
    load_dict_of_dfs_csv fsFolderDotSaved ["f"] = .ok [("a", 5)] ∧
    ([("a", 5)] : List (String × Nat)) ≠ [("a.b", 5)] :=
  ⟨rfl, rfl, by decide⟩

/-! ### Claim C10 -/

/-- Claim C10: `load_dict_of_dfs_csv` considers exactly the folder entries
whose names end in `.csv`, keying each loaded table by the filename prefix
before the first `'.'`; consequently, for every collection saved into a
fresh folder, the set of loaded keys equals the set of saved names
truncated at their first dot. -/
theorem claim_C10_thm :
    (∀ (fs : FSTree α) (folder : FPath) (names : List String),
      listdir fs folder = some names →
      (∀ n ∈ names, pyEndsWith n ".csv" = true →
        ∃ v, read_csv fs (folder ++ [n]) = .ok v) →
      ∃ out, load_dict_of_dfs_csv fs folder = .ok out ∧
        ∀ q, q ∈ out.map (·.1) ↔
          q ∈ (names.filter (fun n => pyEndsWith n ".csv")).map pyFirstField) ∧
    (∀ (fs : FSTree α) (folder : FPath) (s : Stat) (d : List (String × α)),
      lookupT fs folder = some (.dir s []) → (d.map (·.1)).Nodup →
      ∃ fs', save_dict_of_dfs_csv fs d folder = .ok fs' ∧
        ∃ out, load_dict_of_dfs_csv fs' folder = .ok out ∧
          ∀ q, q ∈ out.map (·.1) ↔ q ∈ d.map (fun kv => pyFirstField kv.1)) := by
  constructor
  · intro fs folder names hld hread
    obtain ⟨out, hout, hkeys⟩ := load_csv_loop_keys names ([] : List (String × α)) hread
    refine ⟨out, ?_, ?_⟩
    · unfold load_dict_of_dfs_csv
      rw [hld]
      exact hout
    · intro q
      rw [hkeys q]
      simp
  · intro fs folder s d hdir hnd
    have hinj : Function.Injective (fun k : String => k ++ ".csv") :=
      fun a b hEq => string_append_right_cancel hEq
    have hndm : (d.map (fun kv => kv.1 ++ ".csv")).Nodup := by
      have : d.map (fun kv => kv.1 ++ ".csv") =
          (d.map (·.1)).map (fun k => k ++ ".csv") := by
        simp [List.map_map]
      rw [this]
      exact hnd.map hinj
    obtain ⟨fs', hsave, hl⟩ :=
      save_csv_loop_spec d fs s [] hdir (fun kv _ => rfl) hndm
    rw [List.nil_append] at hl
    refine ⟨fs', hsave, ?_⟩
    have hnames :
        ((d.map (fun kv => (kv.1 ++ ".csv", FSTree.file defStat (FData.csv kv.2)))).map
          (·.1)) = d.map (fun kv => kv.1 ++ ".csv") := by
      simp [List.map_map]
    have hld : listdir fs' folder = some (d.map (fun kv => kv.1 ++ ".csv")) := by
      simp only [listdir, hl, hnames]
    have hkeysnodup :
        ((d.map (fun kv =>
          (kv.1 ++ ".csv", FSTree.file defStat (FData.csv kv.2)))).map (·.1)).Nodup := by
      rw [hnames]
      exact hndm
    have hread : ∀ n ∈ d.map (fun kv => kv.1 ++ ".csv"),
        pyEndsWith n ".csv" = true → ∃ v, read_csv fs' (folder ++ [n]) = .ok v := by
      intro n hn _
      obtain ⟨kv, hkv, rfl⟩ := List.mem_map.mp hn
      have hmem : ((kv.1 ++ ".csv", FSTree.file defStat (FData.csv kv.2)) :
          String × FSTree α) ∈
          d.map (fun kv => (kv.1 ++ ".csv", FSTree.file defStat (FData.csv kv.2))) :=
        List.mem_map_of_mem _ hkv
      have hc := lookupChild_of_mem_nodup hkeysnodup hmem
      refine ⟨kv.2, ?_⟩
      have hlf : lookupT fs' (folder ++ [kv.1 ++ ".csv"]) =
          some (.file defStat (.csv kv.2)) := by
        rw [lookupT_append, hl]
        show lookupT (FSTree.dir s _) [kv.1 ++ ".csv"] = _
        rw [lookupT_cons, hc]
        exact lookupT_nil _
      unfold read_csv
      rw [hlf]
    obtain ⟨out, hout, hkeys⟩ :=
      load_csv_loop_keys (d.map (fun kv => kv.1 ++ ".csv")) ([] : List (String × α)) hread
    refine ⟨out, ?_, ?_⟩
    · unfold load_dict_of_dfs_csv
      rw [hld]
      exact hout
    · intro q
      rw [hkeys q]
      have hfilter : (d.map (fun kv => kv.1 ++ ".csv")).filter
          (fun n => pyEndsWith n ".csv") = d.map (fun kv => kv.1 ++ ".csv") := by
        rw [List.filter_eq_self]
        intro n hn
        obtain ⟨kv, hkv, rfl⟩ := List.mem_map.mp hn
        exact pyEndsWith_append_csv kv.1
      rw [hfilter]
      have hmapff : (d.map (fun kv => kv.1 ++ ".csv")).map pyFirstField =
          d.map (fun kv => pyFirstField kv.1) := by
        rw [List.map_map]
        refine List.map_congr_left ?_
        intro kv _
        exact pyFirstField_append_csv kv.1
      rw [hmapff]
      simp

/-- Witness for C10: a folder with two CSV files (one dotted) and one
non-CSV file, and a saved collection with a dotted name. -/
theorem claim_C10_witness :
    (∃ out, load_dict_of_dfs_csv fsCsvMix ["f"] = .ok out ∧
      ∀ q, q ∈ out.map (·.1) ↔
        q ∈ ((["t1.csv", "notes.txt", "t2.x.csv"].filter
          (fun n => pyEndsWith n ".csv")).map pyFirstField)) ∧
    (∃ fs', save_dict_of_dfs_csv fsFolder [("a.b", (5 : Nat)), ("c", 6)] ["f"] = .ok fs' ∧
      ∃ out, load_dict_of_dfs_csv fs' ["f"] = .ok out ∧
        ∀ q, q ∈ out.map (·.1) ↔
          q ∈ [("a.b", (5 : Nat)), ("c", 6)].map (fun kv => pyFirstField kv.1)) := by
  constructor
  · refine claim_C10_thm.1 fsCsvMix ["f"] ["t1.csv", "notes.txt", "t2.x.csv"] rfl ?_
    intro n hn he
    fin_cases hn
    · exact ⟨3, rfl⟩
    · exact absurd he (by decide)
    · exact ⟨4, rfl⟩
  · exact claim_C10_thm.2 fsFolder ["f"] defStat [("a.b", 5), ("c", 6)] rfl (by decide)
